import Mathlib

/-!
Verification of the Google AQI feed coordinators
(`custom_components/google_aqi/coordinator.py` and the index lookup in
`custom_components/google_aqi/sensor.py`).

The embedding models the JSON payloads the coordinators consume, the parsing
performed by `GoogleAQIDataCoordinator._async_update_data` and
`GoogleAQIForecastCoordinator._async_update_data`, and the state each
coordinator keeps (`_pollutants`/`_indexes`, `forecast_data`).  HTTP transport
is modelled as an outcome value: an exception, a non-200 status with body
text, or a 200 response with a decoded body.
-/

namespace GoogleAQI

/-- Scalar JSON values (concentration values, units, source and effect texts)
are carried through the parse unchanged and never inspected; we model each by
an opaque token. -/
abbrev JsonScalar := String

/-- The code of the universal AQI index that the forecast parse searches for
(`idx.get("code") == "uaqi"` in `coordinator.py`). -/
def uaqiCode : String := "uaqi"

/-- A `concentration` sub-object of a pollutant entry: both fields optional. -/
structure RawConcentration where
  value : Option JsonScalar
  units : Option JsonScalar
deriving DecidableEq

/-- An `additionalInfo` sub-object of a pollutant entry. -/
structure RawAdditionalInfo where
  sources : Option JsonScalar
  effects : Option JsonScalar
deriving DecidableEq

/-- One entry of the `pollutants` array of a current-conditions response.
Each field may be absent (`pollutant.get(...)` in the source). -/
structure RawPollutant where
  code : Option String
  concentration : Option RawConcentration
  additionalInfo : Option RawAdditionalInfo
deriving DecidableEq

/-- One entry of an `indexes` array, as delivered by the API.  The
current-conditions coordinator stores these as-is; the forecast parse and the
index sensors read `code`, `aqi`, `category` and `dominantPollutant` from
them. -/
structure RawIndex where
  code : Option String
  displayName : Option String
  aqi : Option Int
  category : Option String
  dominantPollutant : Option String
deriving DecidableEq

/-- The normalized per-pollutant record built by the current-conditions
parse: `{"value": ..., "units": ..., "sources": ..., "effects": ...}`. -/
structure PollutantReading where
  value : Option JsonScalar
  units : Option JsonScalar
  sources : Option JsonScalar
  effects : Option JsonScalar
deriving DecidableEq

/-- Body of a current-conditions response.  `data.get("pollutants", [])` and
`data.get("indexes", [])` default to the empty list, so both keys are
optional. -/
structure CCResponse where
  pollutants : Option (List RawPollutant)
  indexes : Option (List RawIndex)
deriving DecidableEq

/-- One entry of `hourlyForecasts`: `forecast_entry.get("dateTime")` and
`forecast_entry.get("indexes", [])`. -/
structure ForecastEntryRaw where
  dateTime : Option String
  indexes : Option (List RawIndex)
deriving DecidableEq

/-- Body of a forecast response.  `hourlyForecasts = none` models a falsy or
key-missing body (`if not data or "hourlyForecasts" not in data`). -/
structure ForecastResponse where
  hourlyForecasts : Option (List ForecastEntryRaw)
deriving DecidableEq

/-- One record of the parsed forecast list:
`{"datetime": ..., "aqi": ..., "dominant_pollutant": ...}`. -/
structure ForecastPoint where
  datetime : Option String
  aqi : Option Int
  dominant_pollutant : Option String
deriving DecidableEq

/-- Outcome of one HTTP round trip, as observed by `_async_update_data`:
an exception raised by the transport or by JSON decoding, a non-200 status
(with its body text), or a 200 status with a decoded body. -/
inductive HttpOutcome (β : Type) where
  | exn (e : String)
  | httpError (status : Nat) (text : String)
  | ok (body : β)
deriving DecidableEq

/-- How a refresh terminates: `updateFailed` models raising `UpdateFailed`
(the coordinator framework's expected failure signal), `unhandled` models any
other exception escaping `_async_update_data` uncaught. -/
inductive UpdateError where
  | updateFailed (msg : String)
  | unhandled (e : String)
deriving DecidableEq

/-! ### Python dict semantics

`pollutants[code] = {...}` inside the parse loop: assignment to an existing
key replaces the value in place (keeping the key's position), assignment to a
fresh key appends.  We model the dict as an association list with exactly
that insertion. -/

/-- Keys of an association list. -/
def dictKeys {α β : Type} (m : List (α × β)) : List α :=
  m.map Prod.fst

/-- Python dict assignment `m[k] = v`. -/
def dictInsert {α β : Type} [DecidableEq α] (m : List (α × β)) (k : α) (v : β) :
    List (α × β) :=
  if k ∈ dictKeys m then
    m.map (fun q => if q.1 = k then (k, v) else q)
  else m ++ [(k, v)]

/-- Python dict lookup `m.get(k)` (first entry with the key; keys are unique
by construction). -/
def dictLookup {α β : Type} [DecidableEq α] : List (α × β) → α → Option β
  | [], _ => none
  | q :: rest, k => if q.1 = k then some q.2 else dictLookup rest k

/-! ### Current-conditions coordinator (`GoogleAQIDataCoordinator`) -/

/-- The record built for one pollutant entry (lines 86-93 of
`coordinator.py`): `concentration = pollutant.get("concentration", {})`,
then `concentration.get("value")`, `concentration.get("units")`,
`pollutant.get("additionalInfo", {}).get("sources")` and `...("effects")`. -/
def pollutantReadingOf (p : RawPollutant) : PollutantReading :=
  let conc := p.concentration.getD { value := none, units := none }
  let info := p.additionalInfo.getD { sources := none, effects := none }
  { value := conc.value
    units := conc.units
    sources := info.sources
    effects := info.effects }

/-- The pollutant parse loop of `GoogleAQIDataCoordinator._async_update_data`
(lines 84-93): start from an empty dict and assign
`pollutants[pollutant.get("code")] = {...}` for each entry in order. -/
def parsePollutants (ps : List RawPollutant) : List (Option String × PollutantReading) :=
  ps.foldl (fun m p => dictInsert m p.code (pollutantReadingOf p)) []

/-- Cached view of the current-conditions coordinator:
`self._pollutants` and `self._indexes`. -/
structure DataState where
  pollutants : List (Option String × PollutantReading)
  indexes : List RawIndex
deriving DecidableEq

/-- Error message prefix used by the data coordinator's catch-all handler. -/
def dataErrMsgStart : String := "Error fetching current AQI data: "

/-- Message raised by `_raise_update_failed` for a non-200 response. -/
def apiResponseMsg (status : Nat) (text : String) : String :=
  "API response " ++ toString status ++ ": " ++ text

/-- `GoogleAQIDataCoordinator._async_update_data` (lines 58-110).  The whole
body is wrapped in `try/except Exception`, so every failure - transport
exception, or the `UpdateFailed` raised by `_raise_update_failed` on a
non-200 status - is re-raised as `UpdateFailed`.  On success the parsed
pollutant dict and the raw index list replace the cached view and the raw
body is returned. -/
def dataCoordinatorUpdateData (st : DataState) (out : HttpOutcome CCResponse) :
    DataState × Except UpdateError CCResponse :=
  match out with
  | .exn e =>
      (st, .error (.updateFailed (dataErrMsgStart ++ e)))
  | .httpError status text =>
      (st, .error (.updateFailed (dataErrMsgStart ++ apiResponseMsg status text)))
  | .ok body =>
      let pollutants := parsePollutants (body.pollutants.getD [])
      let indexes := body.indexes.getD []
      ({ pollutants := pollutants, indexes := indexes }, .ok body)

/-! ### Forecast coordinator (`GoogleAQIForecastCoordinator`) -/

/-- First index entry whose `code` equals the given code:
`next((idx for idx in ... if idx.get("code") == code), None)` in the forecast
parse, and the first-match loop of `GoogleAQIIndexSensor.native_value`. -/
def findIndexByCode (l : List RawIndex) (code : String) : Option RawIndex :=
  l.find? (fun idx => decide (idx.code = some code))

/-- `GoogleAQIIndexSensor.native_value` (`sensor.py` lines 96-101): return
`index.get("aqi")` of the first cached index whose code matches, else None. -/
def indexSensorNativeValue (indexes : List RawIndex) (code : String) : Option Int :=
  match findIndexByCode indexes code with
  | some idx => idx.aqi
  | none => none

/-- One forecast record (lines 194-210 of `coordinator.py`): pick the first
`uaqi` index of the entry; record its `aqi` and `dominantPollutant`, or None
for both when there is no such index. -/
def forecastParseEntry (e : ForecastEntryRaw) : ForecastPoint :=
  let uaqiIndex := findIndexByCode (e.indexes.getD []) uaqiCode
  { datetime := e.dateTime
    aqi := match uaqiIndex with
      | some idx => idx.aqi
      | none => none
    dominant_pollutant := match uaqiIndex with
      | some idx => idx.dominantPollutant
      | none => none }

/-- The forecast parse loop: one output record per `hourlyForecasts` entry,
in input order. -/
def parseForecastEntries (entries : List ForecastEntryRaw) : List ForecastPoint :=
  entries.map forecastParseEntry

/-- Message raised for a non-200 forecast response. -/
def forecastApiErrorMsg (status : Nat) (text : String) : String :=
  "Forecast API error " ++ toString status ++ ": " ++ text

/-- Message raised for a falsy body or one missing `hourlyForecasts`. -/
def invalidForecastMsg : String := "Invalid forecast data received"

/-- `GoogleAQIForecastCoordinator._async_update_data` (lines 145-214), acting
on the cached `forecast_data` list.  There is no `try/except` around the
body: a transport or JSON-decoding exception escapes uncaught (`unhandled`),
while a non-200 status and a missing `hourlyForecasts` key raise
`UpdateFailed`.  On success the parsed list replaces the cache and is
returned. -/
def forecastCoordinatorUpdateData (st : List ForecastPoint)
    (out : HttpOutcome ForecastResponse) :
    List ForecastPoint × Except UpdateError (List ForecastPoint) :=
  match out with
  | .exn e => (st, .error (.unhandled e))
  | .httpError status text =>
      (st, .error (.updateFailed (forecastApiErrorMsg status text)))
  | .ok body =>
      match body.hourlyForecasts with
      | none => (st, .error (.updateFailed invalidForecastMsg))
      | some entries =>
          let forecasts := parseForecastEntries entries
          (forecasts, .ok forecasts)

/-! ### Forecast request window (lines 153-168 of `coordinator.py`)

`now = datetime.now(UTC)` is modelled as microseconds since the Unix epoch
(UTC calendar arithmetic on aware datetimes is timeline arithmetic, and every
UTC hour boundary is a multiple of 3600 s since the epoch).
`next_full_hour = (now + timedelta(hours=1)).replace(minute=0, second=0,
microsecond=0)` zeroes everything below the hour, i.e. floors `now + 1h` to
the hour. -/

/-- One hour in microseconds. -/
def hourUs : Nat := 3600000000

/-- `next_full_hour`: floor of `now + 1 hour` to the hour boundary. -/
def nextFullHourUs (nowUs : Nat) : Nat :=
  ((nowUs + hourUs) / hourUs) * hourUs

/-- `end_time = next_full_hour + timedelta(hours=self._forecast_length)`. -/
def endTimeUs (nowUs : Nat) (forecastLength : Nat) : Nat :=
  nextFullHourUs nowUs + forecastLength * hourUs

/-- Zero-pad a number below 100 to two digits. -/
def pad2 (n : Nat) : String :=
  if n < 10 then ("0" ++ toString n) else toString n

/-- Zero-pad a number below 10000 to four digits. -/
def pad4 (n : Nat) : String :=
  if n < 10 then ("000" ++ toString n)
  else if n < 100 then ("00" ++ toString n)
  else if n < 1000 then ("0" ++ toString n)
  else toString n

/-- Proleptic-Gregorian civil date from a count of days since 1970-01-01
(the conversion Python's `datetime` performs for UTC timestamps; valid for
non-negative day counts). Returns (year, month, day). -/
def daysToCivil (days : Nat) : Nat × Nat × Nat :=
  let z := days + 719468
  let era := z / 146097
  let doe := z % 146097
  let yoe := (doe - doe / 1460 + doe / 36524 - doe / 146096) / 365
  let y := yoe + era * 400
  let doy := doe - (365 * yoe + yoe / 4 - yoe / 100)
  let mp := (5 * doy + 2) / 153
  let d := doy - (153 * mp + 2) / 5 + 1
  let m := if mp < 10 then mp + 3 else mp - 9
  (if m ≤ 2 then y + 1 else y, m, d)

/-- `strftime("%Y-%m-%dT%H:%M:%SZ")` on a UTC timestamp given in seconds
since the epoch. -/
def formatUtc (secs : Nat) : String :=
  let days := secs / 86400
  let rem := secs % 86400
  let c := daysToCivil days
  pad4 c.1 ++ "-" ++ pad2 c.2.1 ++ "-" ++ pad2 c.2.2 ++ "T" ++
    pad2 (rem / 3600) ++ ":" ++ pad2 ((rem % 3600) / 60) ++ ":" ++
    pad2 (rem % 60) ++ "Z"

/-- The `startTime` string of the forecast request payload. -/
def startTimeStr (nowUs : Nat) : String :=
  formatUtc (nextFullHourUs nowUs / 1000000)

/-- The `endTime` string of the forecast request payload. -/
def endTimeStr (nowUs : Nat) (forecastLength : Nat) : String :=
  formatUtc (endTimeUs nowUs forecastLength / 1000000)

/-! ### Staleness-gated forecast refresh

The spec (section 4.2 and the design note in section 9) describes the
forecast feed with an internal staleness gate: `refreshIfDue(now)` compares
`now` against `lastForecastUpdate + forecastIntervalHours` and only fetches
when due.  That variant of the forecast coordinator is part of the
repository's history but not of the current tree, where the interval is
enforced by the external scheduler instead. -/

/-- Modelled from the spec: the gated forecast feed's state.  The cached
forecast sequence plus `lastForecastUpdate`, the time of the last successful
fetch (`none` when no fetch ever succeeded), in seconds since the epoch. -/
structure GatedForecastState where
  forecastData : List ForecastPoint
  lastForecastUpdate : Option Nat
deriving DecidableEq

deriving instance DecidableEq for Except

/-- Modelled from the spec: the result of `refreshIfDue` - either the gate
skipped the tick, or a fetch ran and ended in the given result. -/
inductive RefreshResult where
  | skipped
  | fetched (r : Except UpdateError (List ForecastPoint))
deriving DecidableEq

/-- Modelled from the spec: `refreshIfDue(now)` of the forecast feed, whose
internal staleness gate is absent from the current tree.  In the Fresh state
(elapsed time since the last successful fetch below `intervalHours`) it is a
no-op returning `skipped`; otherwise it runs the fetch-and-parse of
`GoogleAQIForecastCoordinator._async_update_data` and, on success only,
advances `lastForecastUpdate` to `now`. -/
def refreshIfDue (intervalHours : Nat) (st : GatedForecastState) (now : Nat)
    (out : HttpOutcome ForecastResponse) : GatedForecastState × RefreshResult :=
  let due := match st.lastForecastUpdate with
    | none => true
    | some t => decide (t + intervalHours * 3600 ≤ now)
  if due then
    match forecastCoordinatorUpdateData st.forecastData out with
    | (d, .ok f) =>
        ({ forecastData := d, lastForecastUpdate := some now }, .fetched (.ok f))
    | (d, .error e) =>
        ({ forecastData := d, lastForecastUpdate := st.lastForecastUpdate },
          .fetched (.error e))
  else (st, .skipped)

/-- The parse loop started from an arbitrary accumulator dict. -/
def parsePollutantsFrom (m : List (Option String × PollutantReading))
    (ps : List RawPollutant) : List (Option String × PollutantReading) :=
  ps.foldl (fun m p => dictInsert m p.code (pollutantReadingOf p)) m

/-- The last element of `ps` whose `code` equals `k`, if any. -/
def lastMatch (k : Option String) : List RawPollutant → Option RawPollutant
  | [] => none
  | p :: rest =>
    match lastMatch k rest with
    | some q => some q
    | none => if p.code = k then some p else none

/-- What it means for `r` to be the first-match result of looking up `code`
in `l`: either `r = some a` with `a` a matching element all of whose
predecessors fail to match, or `r = none` and no element matches. -/
def FirstWithCode (l : List RawIndex) (code : String) : Option RawIndex → Prop
  | some a => ∃ pre post, l = pre ++ a :: post ∧ a.code = some code ∧
      ∀ x ∈ pre, x.code ≠ some code
  | none => ∀ x ∈ l, x.code ≠ some code

/-- The relation between a raw pollutant entry and its normalized record:
a present `concentration` (resp. `additionalInfo`) sub-object is copied
field-by-field; an absent one yields `none` for both of its fields. -/
def ReadingMatches (p : RawPollutant) (r : PollutantReading) : Prop :=
  (∀ c, p.concentration = some c → r.value = c.value ∧ r.units = c.units) ∧
  (p.concentration = none → r.value = none ∧ r.units = none) ∧
  (∀ ai, p.additionalInfo = some ai → r.sources = ai.sources ∧ r.effects = ai.effects) ∧
  (p.additionalInfo = none → r.sources = none ∧ r.effects = none)

/-! ### Lemmas about the dict model -/

section DictLemmas

variable {α β : Type} [DecidableEq α]

omit [DecidableEq α] in
lemma dictKeys_cons (q : α × β) (m : List (α × β)) :
    dictKeys (q :: m) = q.1 :: dictKeys m := rfl

lemma dictLookup_map_replace_ne (m : List (α × β)) (k j : α) (v : β) (h : j ≠ k) :
    dictLookup (m.map (fun q => if q.1 = k then (k, v) else q)) j = dictLookup m j := by
  induction m with
  | nil => rfl
  | cons q rest ih =>
    by_cases hq : q.1 = k
    · simp only [List.map_cons, if_pos hq, dictLookup, if_neg (Ne.symm h), ih,
        if_neg (hq ▸ (Ne.symm h))]
    · simp only [List.map_cons, if_neg hq, dictLookup, ih]

lemma dictLookup_append_single_ne (m : List (α × β)) (k j : α) (v : β) (h : j ≠ k) :
    dictLookup (m ++ [(k, v)]) j = dictLookup m j := by
  induction m with
  | nil => simp [dictLookup, Ne.symm h]
  | cons q rest ih =>
    by_cases hqj : q.1 = j <;> simp [dictLookup, hqj, ih]

lemma dictLookup_map_replace_self (m : List (α × β)) (k : α) (v : β)
    (hmem : k ∈ dictKeys m) :
    dictLookup (m.map (fun q => if q.1 = k then (k, v) else q)) k = some v := by
  induction m with
  | nil => simp [dictKeys] at hmem
  | cons q rest ih =>
    by_cases hq : q.1 = k
    · simp [dictLookup, hq]
    · have hk : k ∈ dictKeys rest := by
        rcases (List.mem_cons.mp hmem) with h | h
        · exact absurd h.symm hq
        · exact h
      simp only [List.map_cons, if_neg hq, dictLookup, if_neg hq, ih hk]

lemma dictLookup_append_single_self (m : List (α × β)) (k : α) (v : β)
    (hmem : k ∉ dictKeys m) :
    dictLookup (m ++ [(k, v)]) k = some v := by
  induction m with
  | nil => simp [dictLookup]
  | cons q rest ih =>
    have hq : q.1 ≠ k := by
      intro h
      exact hmem (h ▸ List.mem_cons_self _ _)
    have hk : k ∉ dictKeys rest := fun h => hmem (List.mem_cons_of_mem _ h)
    simp [dictLookup, if_neg hq, ih hk]

lemma dictLookup_insert_self (m : List (α × β)) (k : α) (v : β) :
    dictLookup (dictInsert m k v) k = some v := by
  unfold dictInsert
  by_cases hmem : k ∈ dictKeys m
  · simpa [if_pos hmem] using dictLookup_map_replace_self m k v hmem
  · simpa [if_neg hmem] using dictLookup_append_single_self m k v hmem

lemma dictLookup_insert_ne (m : List (α × β)) (k j : α) (v : β) (h : j ≠ k) :
    dictLookup (dictInsert m k v) j = dictLookup m j := by
  unfold dictInsert
  by_cases hmem : k ∈ dictKeys m
  · simpa [if_pos hmem] using dictLookup_map_replace_ne m k j v h
  · simpa [if_neg hmem] using dictLookup_append_single_ne m k j v h

lemma dictKeys_map_replace (m : List (α × β)) (k : α) (v : β) :
    dictKeys (m.map (fun q => if q.1 = k then (k, v) else q)) = dictKeys m := by
  induction m with
  | nil => rfl
  | cons q rest ih =>
    by_cases hq : q.1 = k
    · simp [dictKeys_cons, hq, ih]
    · simp [dictKeys_cons, hq, ih]

lemma dictKeys_insert_of_mem (m : List (α × β)) (k : α) (v : β)
    (hmem : k ∈ dictKeys m) :
    dictKeys (dictInsert m k v) = dictKeys m := by
  unfold dictInsert
  simpa [if_pos hmem] using dictKeys_map_replace m k v

lemma dictKeys_insert_of_not_mem (m : List (α × β)) (k : α) (v : β)
    (hmem : k ∉ dictKeys m) :
    dictKeys (dictInsert m k v) = dictKeys m ++ [k] := by
  rw [dictInsert, if_neg hmem]
  simp [dictKeys]

lemma length_dictInsert_of_not_mem (m : List (α × β)) (k : α) (v : β)
    (hmem : k ∉ dictKeys m) :
    (dictInsert m k v).length = m.length + 1 := by
  unfold dictInsert
  simp [if_neg hmem]

lemma dictKeys_nodup_insert (m : List (α × β)) (k : α) (v : β)
    (h : (dictKeys m).Nodup) : (dictKeys (dictInsert m k v)).Nodup := by
  by_cases hmem : k ∈ dictKeys m
  · rw [dictKeys_insert_of_mem m k v hmem]
    exact h
  · rw [dictKeys_insert_of_not_mem m k v hmem]
    simp [List.nodup_append, h, List.disjoint_singleton, hmem]

lemma dictLookup_eq_none_of_not_mem (m : List (α × β)) (k : α)
    (hmem : k ∉ dictKeys m) : dictLookup m k = none := by
  induction m with
  | nil => rfl
  | cons q rest ih =>
    have hq : q.1 ≠ k := fun h => hmem (h ▸ List.mem_cons_self _ _)
    have hk : k ∉ dictKeys rest := fun h => hmem (List.mem_cons_of_mem _ h)
    simp only [dictLookup, if_neg hq, ih hk]

lemma mem_dictKeys_of_lookup_some (m : List (α × β)) (k : α) (v : β)
    (h : dictLookup m k = some v) : k ∈ dictKeys m := by
  induction m with
  | nil => simp [dictLookup] at h
  | cons q rest ih =>
    by_cases hq : q.1 = k
    · exact hq ▸ List.mem_cons_self _ _
    · simp only [dictLookup, if_neg hq] at h
      exact List.mem_cons_of_mem _ (ih h)

end DictLemmas

/-! ### Lemmas about the pollutant parse -/


lemma parsePollutants_eq_from (ps : List RawPollutant) :
    parsePollutants ps = parsePollutantsFrom [] ps := rfl

lemma parsePollutantsFrom_cons (m : List (Option String × PollutantReading))
    (p : RawPollutant) (rest : List RawPollutant) :
    parsePollutantsFrom m (p :: rest) =
      parsePollutantsFrom (dictInsert m p.code (pollutantReadingOf p)) rest := rfl


lemma lastMatch_mem_and_code (k : Option String) (ps : List RawPollutant)
    (q : RawPollutant) (h : lastMatch k ps = some q) : q ∈ ps ∧ q.code = k := by
  induction ps with
  | nil => exact Option.noConfusion h
  | cons p rest ih =>
    cases hl : lastMatch k rest with
    | some r =>
      simp only [lastMatch, hl] at h
      injection h with h2
      subst h2
      obtain ⟨hmem, hcode⟩ := ih hl
      exact ⟨List.mem_cons_of_mem _ hmem, hcode⟩
    | none =>
      simp only [lastMatch, hl] at h
      by_cases hc : p.code = k
      · rw [if_pos hc] at h
        injection h with h2
        subst h2
        exact ⟨List.mem_cons_self _ _, hc⟩
      · rw [if_neg hc] at h
        exact Option.noConfusion h

lemma lastMatch_eq_none_iff (k : Option String) (ps : List RawPollutant) :
    lastMatch k ps = none ↔ ∀ p ∈ ps, p.code ≠ k := by
  induction ps with
  | nil => simp [lastMatch]
  | cons p rest ih =>
    cases hl : lastMatch k rest with
    | some q =>
      have hq := lastMatch_mem_and_code k rest q hl
      simp only [lastMatch, hl]
      constructor
      · intro h
        exact Option.noConfusion h
      · intro h
        exact absurd hq.2 (h q (List.mem_cons_of_mem _ hq.1))
    | none =>
      simp only [lastMatch, hl]
      by_cases hc : p.code = k
      · simp only [if_pos hc]
        constructor
        · intro h
          exact Option.noConfusion h
        · intro h
          exact absurd hc (h p (List.mem_cons_self _ _))
      · simp only [if_neg hc]
        constructor
        · intro _ r hr
          rcases List.mem_cons.mp hr with h | h
          · exact h ▸ hc
          · exact (ih.mp hl) r h
        · intro _
          trivial

/-- Core characterization of the parse loop: looking up a code in the
resulting dict yields the normalized record of the last input entry with
that code, falling back to the accumulator. -/
lemma dictLookup_parsePollutantsFrom (ps : List RawPollutant) :
    ∀ (m : List (Option String × PollutantReading)) (k : Option String),
      dictLookup (parsePollutantsFrom m ps) k =
        match lastMatch k ps with
        | some q => some (pollutantReadingOf q)
        | none => dictLookup m k := by
  induction ps with
  | nil => intro m k; rfl
  | cons p rest ih =>
    intro m k
    rw [parsePollutantsFrom_cons, ih]
    cases hl : lastMatch k rest with
    | some q => simp [lastMatch, hl]
    | none =>
      by_cases hc : p.code = k
      · subst hc
        simp [lastMatch, hl, dictLookup_insert_self]
      · simp [lastMatch, hl, if_neg hc,
          dictLookup_insert_ne m p.code k (pollutantReadingOf p) (fun h => hc h.symm)]

lemma dictLookup_parsePollutants (ps : List RawPollutant) (k : Option String) :
    dictLookup (parsePollutants ps) k =
      match lastMatch k ps with
      | some q => some (pollutantReadingOf q)
      | none => none := by
  rw [parsePollutants_eq_from, dictLookup_parsePollutantsFrom]
  cases lastMatch k ps <;> rfl

lemma dictLookup_parsePollutants_of_not_mem (ps : List RawPollutant)
    (k : Option String) (h : k ∉ ps.map RawPollutant.code) :
    dictLookup (parsePollutants ps) k = none := by
  rw [dictLookup_parsePollutants]
  have : lastMatch k ps = none := by
    rw [lastMatch_eq_none_iff]
    intro p hp hcode
    exact h (hcode ▸ List.mem_map_of_mem RawPollutant.code hp)
  rw [this]

lemma lastMatch_self_of_nodup (ps : List RawPollutant)
    (hnd : (ps.map RawPollutant.code).Nodup) (p : RawPollutant) (hp : p ∈ ps) :
    lastMatch p.code ps = some p := by
  induction ps with
  | nil => cases hp
  | cons q rest ih =>
    have hnd2 : q.code ∉ rest.map RawPollutant.code ∧ (rest.map RawPollutant.code).Nodup := by
      rw [List.map_cons] at hnd
      exact List.nodup_cons.mp hnd
    rcases List.mem_cons.mp hp with h | h
    · subst h
      have hnone : lastMatch p.code rest = none := by
        rw [lastMatch_eq_none_iff]
        intro r hr hcode
        exact hnd2.1 (hcode ▸ List.mem_map_of_mem RawPollutant.code hr)
      simp [lastMatch, hnone]
    · have := ih hnd2.2 h
      simp [lastMatch, this]

lemma length_parsePollutantsFrom (ps : List RawPollutant) :
    ∀ (m : List (Option String × PollutantReading)),
      (∀ p ∈ ps, p.code ∉ dictKeys m) → (ps.map RawPollutant.code).Nodup →
      (parsePollutantsFrom m ps).length = m.length + ps.length := by
  induction ps with
  | nil => intro m _ _; simp [parsePollutantsFrom]
  | cons p rest ih =>
    intro m hdisj hnd
    have hnd2 : p.code ∉ rest.map RawPollutant.code ∧ (rest.map RawPollutant.code).Nodup := by
      rw [List.map_cons] at hnd
      exact List.nodup_cons.mp hnd
    have hpm : p.code ∉ dictKeys m := hdisj p (List.mem_cons_self _ _)
    have hkeys := dictKeys_insert_of_not_mem m p.code (pollutantReadingOf p) hpm
    have hlen := length_dictInsert_of_not_mem m p.code (pollutantReadingOf p) hpm
    have hdisj2 : ∀ q ∈ rest, q.code ∉ dictKeys (dictInsert m p.code (pollutantReadingOf p)) := by
      intro q hq
      rw [hkeys]
      simp only [List.mem_append, List.mem_singleton]
      rintro (h | h)
      · exact hdisj q (List.mem_cons_of_mem _ hq) h
      · exact hnd2.1 (h ▸ List.mem_map_of_mem RawPollutant.code hq)
    rw [parsePollutantsFrom_cons, ih _ hdisj2 hnd2.2, hlen, List.length_cons]
    omega

lemma length_parsePollutants (ps : List RawPollutant)
    (hnd : (ps.map RawPollutant.code).Nodup) :
    (parsePollutants ps).length = ps.length := by
  rw [parsePollutants_eq_from, length_parsePollutantsFrom ps [] (by simp [dictKeys]) hnd]
  simp

lemma dictKeys_nodup_parsePollutantsFrom (ps : List RawPollutant) :
    ∀ (m : List (Option String × PollutantReading)),
      (dictKeys m).Nodup → (dictKeys (parsePollutantsFrom m ps)).Nodup := by
  induction ps with
  | nil => intro m h; exact h
  | cons p rest ih =>
    intro m h
    rw [parsePollutantsFrom_cons]
    exact ih _ (dictKeys_nodup_insert m p.code (pollutantReadingOf p) h)

lemma dictKeys_nodup_parsePollutants (ps : List RawPollutant) :
    (dictKeys (parsePollutants ps)).Nodup := by
  rw [parsePollutants_eq_from]
  exact dictKeys_nodup_parsePollutantsFrom ps [] (by simp [dictKeys])

/-! ### Lemmas about index lookup -/


lemma findIndexByCode_firstWithCode (l : List RawIndex) (code : String) :
    FirstWithCode l code (findIndexByCode l code) := by
  induction l with
  | nil =>
    show ∀ x ∈ ([] : List RawIndex), x.code ≠ some code
    intro x hx
    cases hx
  | cons a l ih =>
    by_cases h : a.code = some code
    · rw [show findIndexByCode (a :: l) code = some a from
        List.find?_cons_of_pos _ (by simp [h])]
      exact ⟨[], l, rfl, h, fun x hx => absurd hx (List.not_mem_nil x)⟩
    · rw [show findIndexByCode (a :: l) code = findIndexByCode l code from
        List.find?_cons_of_neg _ (by simp [h])]
      cases hfl : findIndexByCode l code with
      | some b =>
        rw [hfl] at ih
        have ih2 : ∃ pre post, l = pre ++ b :: post ∧ b.code = some code ∧
            ∀ x ∈ pre, x.code ≠ some code := ih
        obtain ⟨pre, post, hdecomp, hcode, hpre⟩ := ih2
        refine ⟨a :: pre, post, by rw [hdecomp]; rfl, hcode, ?_⟩
        intro x hx
        rcases List.mem_cons.mp hx with hh | hh
        · exact hh ▸ h
        · exact hpre x hh
      | none =>
        rw [hfl] at ih
        have ih2 : ∀ x ∈ l, x.code ≠ some code := ih
        show ∀ x ∈ a :: l, x.code ≠ some code
        intro x hx
        rcases List.mem_cons.mp hx with hh | hh
        · exact hh ▸ h
        · exact ih2 x hh

lemma findIndexByCode_append_first (pre post : List RawIndex) (a : RawIndex)
    (code : String) (hpre : ∀ x ∈ pre, x.code ≠ some code)
    (ha : a.code = some code) :
    findIndexByCode (pre ++ a :: post) code = some a := by
  induction pre with
  | nil => exact List.find?_cons_of_pos _ (by simp [ha])
  | cons x rest ih =>
    rw [List.cons_append,
      show findIndexByCode (x :: (rest ++ a :: post)) code =
        findIndexByCode (rest ++ a :: post) code from
        List.find?_cons_of_neg _ (by simp [hpre x (List.mem_cons_self _ _)]),
      ih (fun y hy => hpre y (List.mem_cons_of_mem _ hy))]

/-! ### Field-by-field tolerance of the pollutant parse -/


lemma readingMatches_pollutantReadingOf (p : RawPollutant) :
    ReadingMatches p (pollutantReadingOf p) := by
  refine ⟨?_, ?_, ?_, ?_⟩
  · intro c hc
    simp [pollutantReadingOf, hc]
  · intro hc
    simp [pollutantReadingOf, hc]
  · intro ai hai
    simp [pollutantReadingOf, hai]
  · intro hai
    simp [pollutantReadingOf, hai]

lemma lastMatch_append (k : Option String) (l1 l2 : List RawPollutant) :
    lastMatch k (l1 ++ l2) =
      match lastMatch k l2 with
      | some q => some q
      | none => lastMatch k l1 := by
  induction l1 with
  | nil =>
    rw [List.nil_append]
    cases lastMatch k l2 <;> rfl
  | cons p rest ih =>
    cases hl2 : lastMatch k l2 with
    | some q => simp only [List.cons_append, lastMatch, List.append_eq, ih, hl2]
    | none => simp only [List.cons_append, lastMatch, List.append_eq, ih, hl2]

lemma length_filter_eq_one {γ : Type} [DecidableEq γ] (l : List γ) (a : γ)
    (hnd : l.Nodup) (ha : a ∈ l) :
    (l.filter (fun b => decide (b = a))).length = 1 := by
  induction l with
  | nil => cases ha
  | cons x rest ih =>
    have hx := List.nodup_cons.mp hnd
    rcases List.mem_cons.mp ha with h | h
    · subst h
      rw [List.filter_cons_of_pos (by simp)]
      have hempty : rest.filter (fun b => decide (b = a)) = [] := by
        rw [List.filter_eq_nil_iff]
        intro b hb
        simp only [decide_eq_true_eq]
        intro hba
        exact hx.1 (hba ▸ hb)
      simp [hempty]
    · have hxa : ¬(x = a) := fun he => hx.1 (he ▸ h)
      rw [List.filter_cons_of_neg (by simp [hxa])]
      exact ih hx.2 h

/-! ### Claim theorems -/

/-- C1: for the forecast feed with a configured interval (spec-modelled
internal gate), if the last successful fetch happened at `t`, an invocation
of `refreshIfDue` strictly before `t + intervalHours` hours returns
`skipped` and leaves the state (so the cached forecast) untouched, whatever
the network would have returned - no network call is consulted; an
invocation at `t + intervalHours` hours or later performs a fetch. -/
theorem spec_c1 (intervalHours t now : Nat) (st : GatedForecastState)
    (out : HttpOutcome ForecastResponse)
    (hlast : st.lastForecastUpdate = some t) :
    (now < t + intervalHours * 3600 →
      refreshIfDue intervalHours st now out = (st, RefreshResult.skipped)) ∧
    (t + intervalHours * 3600 ≤ now →
      ∃ r, (refreshIfDue intervalHours st now out).2 = RefreshResult.fetched r) := by
  constructor
  · intro h
    have hdue : decide (t + intervalHours * 3600 ≤ now) = false := by
      simp [Nat.not_le.mpr h]
    simp [refreshIfDue, hlast, hdue]
  · intro h
    have hdue : decide (t + intervalHours * 3600 ≤ now) = true := by simp [h]
    cases hout : forecastCoordinatorUpdateData st.forecastData out with
    | mk d r =>
      cases r with
      | ok f => exact ⟨.ok f, by simp [refreshIfDue, hlast, hdue, hout]⟩
      | error e => exact ⟨.error e, by simp [refreshIfDue, hlast, hdue, hout]⟩

/-- Witness for C1: interval 3 h, last success at 0; a tick at 3600 s (1 h)
is skipped with the state untouched, a tick at 10800 s (3 h) fetches. -/
theorem spec_c1_witness :
    refreshIfDue 3 ⟨[], some 0⟩ 3600 (HttpOutcome.exn ("boom")) =
      (⟨[], some 0⟩, RefreshResult.skipped) ∧
    ∃ r, (refreshIfDue 3 ⟨[], some 0⟩ 10800 (HttpOutcome.exn ("boom"))).2 =
      RefreshResult.fetched r := by
  constructor
  · exact (spec_c1 3 0 3600 ⟨[], some 0⟩ (HttpOutcome.exn ("boom")) rfl).1 (by decide)
  · exact (spec_c1 3 0 10800 ⟨[], some 0⟩ (HttpOutcome.exn ("boom")) rfl).2 (by decide)

/-- C2: every refresh invocation of either feed that fails leaves that
feed's cached view - pollutant map and index list, resp. forecast
sequence - exactly as it was before the invocation.  The claim's two
enumerated failure kinds are stated outright and shown to fail: a non-200
status on either feed (raised at `coordinator.py` line 79 via
`_raise_update_failed`, resp. line 185, in both cases before the parse and
before the cache assignments at lines 98-99, resp. line 212), and a
forecast body missing `hourlyForecasts` (raised at line 190, again before
line 212).  The final two conjuncts generalize this to every failing
outcome: in the source, no statement after the cache assignments can fail,
so a failure result always means the assignments were never reached. -/
theorem spec_c2 (stD : DataState) (stF : List ForecastPoint)
    (outD : HttpOutcome CCResponse) (outF : HttpOutcome ForecastResponse)
    (status : Nat) (text : String) (bodyF : ForecastResponse)
    (eD eF : UpdateError) :
    ((dataCoordinatorUpdateData stD (HttpOutcome.httpError status text)).1 = stD ∧
      ∃ e, (dataCoordinatorUpdateData stD (HttpOutcome.httpError status text)).2 =
        Except.error e) ∧
    ((forecastCoordinatorUpdateData stF (HttpOutcome.httpError status text)).1 = stF ∧
      ∃ e, (forecastCoordinatorUpdateData stF (HttpOutcome.httpError status text)).2 =
        Except.error e) ∧
    (bodyF.hourlyForecasts = none →
      (forecastCoordinatorUpdateData stF (HttpOutcome.ok bodyF)).1 = stF ∧
      ∃ e, (forecastCoordinatorUpdateData stF (HttpOutcome.ok bodyF)).2 =
        Except.error e) ∧
    ((dataCoordinatorUpdateData stD outD).2 = Except.error eD →
      (dataCoordinatorUpdateData stD outD).1 = stD) ∧
    ((forecastCoordinatorUpdateData stF outF).2 = Except.error eF →
      (forecastCoordinatorUpdateData stF outF).1 = stF) := by
  refine ⟨⟨rfl, _, rfl⟩, ⟨rfl, _, rfl⟩, ?_, ?_, ?_⟩
  · intro hb
    rcases bodyF with ⟨hf⟩
    cases hf with
    | none => exact ⟨rfl, _, rfl⟩
    | some entries => simp at hb
  · intro h
    cases outD with
    | exn e => rfl
    | httpError s t => rfl
    | ok body => simp [dataCoordinatorUpdateData] at h
  · intro h
    cases outF with
    | exn e => rfl
    | httpError s t => rfl
    | ok body =>
      cases hb : body.hourlyForecasts with
      | none => simp [forecastCoordinatorUpdateData, hb]
      | some entries => simp [forecastCoordinatorUpdateData, hb] at h

/-- Witness for C2: starting from non-empty cached views, a 500 response on
the current-conditions feed and a forecast body missing `hourlyForecasts`
both fail and leave the respective cached view unchanged; the general
failing-outcome conjunct is exercised at a transport exception on the
current-conditions feed. -/
theorem spec_c2_witness :
    (dataCoordinatorUpdateData
        ⟨[(some ("pm25"), ⟨none, none, none, none⟩)],
          [⟨some ("uaqi"), none, some 50, none, none⟩]⟩
        (HttpOutcome.httpError 500 ("oops"))).1 =
      ⟨[(some ("pm25"), ⟨none, none, none, none⟩)],
        [⟨some ("uaqi"), none, some 50, none, none⟩]⟩ ∧
    (forecastCoordinatorUpdateData [⟨some ("t"), some 42, none⟩]
        (HttpOutcome.ok ⟨none⟩)).1 = [⟨some ("t"), some 42, none⟩] ∧
    (dataCoordinatorUpdateData
        ⟨[(some ("pm25"), ⟨none, none, none, none⟩)],
          [⟨some ("uaqi"), none, some 50, none, none⟩]⟩
        (HttpOutcome.exn ("timeout"))).1 =
      ⟨[(some ("pm25"), ⟨none, none, none, none⟩)],
        [⟨some ("uaqi"), none, some 50, none, none⟩]⟩ := by
  refine ⟨?_, ?_, ?_⟩
  · exact (spec_c2
      ⟨[(some ("pm25"), ⟨none, none, none, none⟩)],
        [⟨some ("uaqi"), none, some 50, none, none⟩]⟩
      [⟨some ("t"), some 42, none⟩] (HttpOutcome.exn ("timeout"))
      (HttpOutcome.exn ("timeout")) 500 ("oops") ⟨none⟩
      (UpdateError.updateFailed (dataErrMsgStart ++ "timeout"))
      (UpdateError.unhandled ("timeout"))).1.1
  · exact ((spec_c2
      ⟨[(some ("pm25"), ⟨none, none, none, none⟩)],
        [⟨some ("uaqi"), none, some 50, none, none⟩]⟩
      [⟨some ("t"), some 42, none⟩] (HttpOutcome.exn ("timeout"))
      (HttpOutcome.exn ("timeout")) 500 ("oops") ⟨none⟩
      (UpdateError.updateFailed (dataErrMsgStart ++ "timeout"))
      (UpdateError.unhandled ("timeout"))).2.2.1 rfl).1
  · exact (spec_c2
      ⟨[(some ("pm25"), ⟨none, none, none, none⟩)],
        [⟨some ("uaqi"), none, some 50, none, none⟩]⟩
      [⟨some ("t"), some 42, none⟩] (HttpOutcome.exn ("timeout"))
      (HttpOutcome.exn ("timeout")) 500 ("oops") ⟨none⟩
      (UpdateError.updateFailed (dataErrMsgStart ++ "timeout"))
      (UpdateError.unhandled ("timeout"))).2.2.2.1 rfl

/-- C4: `startTime` is an hour boundary, strictly after `now` and at most
one hour after it (hence the next hour boundary strictly after `now`), and
`endTime` is exactly `forecastLengthHours` hours later; concretely, for
`now = 2024-01-01T10:15:00Z` (1704104100000000 us since the epoch) the
formatted `startTime` is `2024-01-01T11:00:00Z` and, with a 24-hour length,
the formatted `endTime` is `2024-01-02T11:00:00Z`. -/
theorem spec_c4 (nowUs len : Nat) :
    nextFullHourUs nowUs % hourUs = 0 ∧
    nowUs < nextFullHourUs nowUs ∧
    nextFullHourUs nowUs ≤ nowUs + hourUs ∧
    endTimeUs nowUs len = nextFullHourUs nowUs + len * hourUs ∧
    startTimeStr 1704104100000000 = "2024-01-01T11:00:00Z" ∧
    endTimeStr 1704104100000000 24 = "2024-01-02T11:00:00Z" := by
  refine ⟨Nat.mul_mod_left _ _, ?_, ?_, rfl, by rfl, by rfl⟩
  · unfold nextFullHourUs hourUs
    omega
  · unfold nextFullHourUs hourUs
    omega

/-- C5 counterexample: a transport-level exception during a forecast refresh
is not converted to `UpdateFailed` - it escapes `_async_update_data` of the
forecast coordinator unhandled (there is no `try/except` around its body),
refuting the claim for the forecast feed. -/
theorem spec_c5_counterexample :
    (forecastCoordinatorUpdateData [] (HttpOutcome.exn ("timeout"))).2 =
      Except.error (UpdateError.unhandled ("timeout")) ∧
    UpdateError.unhandled ("timeout") ≠
      UpdateError.updateFailed (dataErrMsgStart ++ "timeout") := by
  exact ⟨rfl, by decide⟩

/-- C5 amended: the current-conditions coordinator converts every failure,
transport exceptions included, into `UpdateFailed`; the forecast coordinator
converts a non-200 status and a missing `hourlyForecasts` body into
`UpdateFailed`, but lets a transport-level exception propagate out of its
update method unhandled. -/
theorem spec_c5_amended (stD : DataState) (stF : List ForecastPoint)
    (outD : HttpOutcome CCResponse) :
    (∀ e, (dataCoordinatorUpdateData stD outD).2 = Except.error e →
      ∃ m, e = UpdateError.updateFailed m) ∧
    (∀ status text, (forecastCoordinatorUpdateData stF (HttpOutcome.httpError status text)).2 =
      Except.error (UpdateError.updateFailed (forecastApiErrorMsg status text))) ∧
    (∀ body : ForecastResponse, body.hourlyForecasts = none →
      (forecastCoordinatorUpdateData stF (HttpOutcome.ok body)).2 =
        Except.error (UpdateError.updateFailed invalidForecastMsg)) ∧
    (∀ e, (forecastCoordinatorUpdateData stF (HttpOutcome.exn e)).2 =
      Except.error (UpdateError.unhandled e)) := by
  refine ⟨?_, fun status text => rfl, ?_, fun e => rfl⟩
  · intro e h
    cases outD with
    | exn x => exact ⟨dataErrMsgStart ++ x, by injection h with h2; rw [h2]⟩
    | httpError s t => exact ⟨dataErrMsgStart ++ apiResponseMsg s t, by injection h with h2; rw [h2]⟩
    | ok body => simp [dataCoordinatorUpdateData] at h
  · intro body hb
    simp [forecastCoordinatorUpdateData, hb]

/-- Witness for C5 amended: concrete instances of all four conjuncts. -/
theorem spec_c5_amended_witness :
    (∃ m, UpdateError.updateFailed (dataErrMsgStart ++ "reset") =
      UpdateError.updateFailed m) ∧
    (forecastCoordinatorUpdateData [] (HttpOutcome.ok ⟨none⟩)).2 =
      Except.error (UpdateError.updateFailed invalidForecastMsg) := by
  constructor
  · exact (spec_c5_amended ⟨[], []⟩ [] (HttpOutcome.exn ("reset"))).1
      (UpdateError.updateFailed (dataErrMsgStart ++ "reset")) rfl
  · exact (spec_c5_amended ⟨[], []⟩ [] (HttpOutcome.exn ("reset"))).2.2.1 ⟨none⟩ rfl

/-- C7: a successful current-conditions refresh replaces the cached
pollutant map (and index list) wholesale with the data parsed from that
response; consequently, after two consecutive successful fetches, any code
absent from the second response's payload - e.g. one present only in the
first - is absent from the cached map. -/
theorem spec_c7 (st st0 : DataState) (body body1 body2 : CCResponse)
    (c : Option String) :
    (dataCoordinatorUpdateData st (HttpOutcome.ok body)).1.pollutants =
      parsePollutants (body.pollutants.getD []) ∧
    (dataCoordinatorUpdateData st (HttpOutcome.ok body)).1.indexes =
      body.indexes.getD [] ∧
    (c ∉ (body2.pollutants.getD []).map RawPollutant.code →
      dictLookup
        ((dataCoordinatorUpdateData
            ((dataCoordinatorUpdateData st0 (HttpOutcome.ok body1)).1)
            (HttpOutcome.ok body2)).1.pollutants) c = none) := by
  refine ⟨rfl, rfl, ?_⟩
  intro h
  exact dictLookup_parsePollutants_of_not_mem _ c h

/-- Witness for C7: the code `pm10` appears only in the first of two fetched
responses and is gone from the cached map after the second fetch. -/
theorem spec_c7_witness :
    dictLookup
      ((dataCoordinatorUpdateData
          ((dataCoordinatorUpdateData ⟨[], []⟩
            (HttpOutcome.ok ⟨some [⟨some ("pm10"), none, none⟩], none⟩)).1)
          (HttpOutcome.ok ⟨some [⟨some ("pm25"), none, none⟩], none⟩)).1.pollutants)
      (some ("pm10")) = none := by
  exact (spec_c7 ⟨[], []⟩ ⟨[], []⟩ ⟨some [⟨some ("pm10"), none, none⟩], none⟩
    ⟨some [⟨some ("pm10"), none, none⟩], none⟩
    ⟨some [⟨some ("pm25"), none, none⟩], none⟩
    (some ("pm10"))).2.2 (by decide)

lemma forecastParseEntry_fields (e : ForecastEntryRaw) :
    (forecastParseEntry e).datetime = e.dateTime ∧
    (forecastParseEntry e).aqi =
      Option.bind (findIndexByCode (e.indexes.getD []) uaqiCode) RawIndex.aqi ∧
    (forecastParseEntry e).dominant_pollutant =
      Option.bind (findIndexByCode (e.indexes.getD []) uaqiCode)
        RawIndex.dominantPollutant := by
  refine ⟨rfl, ?_, ?_⟩ <;>
    cases hf : findIndexByCode (e.indexes.getD []) uaqiCode <;>
      simp [forecastParseEntry, hf]

/-- C3: a successful forecast refresh with N hourly entries produces exactly
N records, in input order, each carrying the entry's `dateTime` and the
`aqi` and `dominantPollutant` of the first index entry whose code is `uaqi`
(or `none` for both when no index entry matches); no entry is skipped. -/
theorem spec_c3 (st : List ForecastPoint) (entries : List ForecastEntryRaw) :
    ∃ res : List ForecastPoint,
      forecastCoordinatorUpdateData st (HttpOutcome.ok ⟨some entries⟩) =
        (res, Except.ok res) ∧
      res.length = entries.length ∧
      ∀ i (hi : i < entries.length), ∃ hr : i < res.length,
        (res.get ⟨i, hr⟩).datetime = (entries.get ⟨i, hi⟩).dateTime ∧
        ∃ r, FirstWithCode ((entries.get ⟨i, hi⟩).indexes.getD []) uaqiCode r ∧
          (res.get ⟨i, hr⟩).aqi = Option.bind r RawIndex.aqi ∧
          (res.get ⟨i, hr⟩).dominant_pollutant =
            Option.bind r RawIndex.dominantPollutant := by
  refine ⟨parseForecastEntries entries, rfl, List.length_map _ _, ?_⟩
  intro i hi
  have hr : i < (parseForecastEntries entries).length := by
    rw [parseForecastEntries, List.length_map]
    exact hi
  have hget : (parseForecastEntries entries).get ⟨i, hr⟩ =
      forecastParseEntry (entries.get ⟨i, hi⟩) := by
    simp [parseForecastEntries]
  refine ⟨hr, ?_, findIndexByCode ((entries.get ⟨i, hi⟩).indexes.getD []) uaqiCode,
    findIndexByCode_firstWithCode _ _, ?_, ?_⟩
  · rw [hget, (forecastParseEntry_fields _).1]
  · rw [hget, (forecastParseEntry_fields _).2.1]
  · rw [hget, (forecastParseEntry_fields _).2.2]

/-- Witness for C3: a two-entry forecast yields two records in order, the
first carrying its entry's timestamp. -/
theorem spec_c3_witness :
    ∃ res : List ForecastPoint, res.length = 2 ∧
      ∃ hr : 0 < res.length,
        (res.get ⟨0, hr⟩).datetime = some ("2024-01-01T11:00:00Z") := by
  obtain ⟨res, _, h2, h3⟩ := spec_c3 []
    [⟨some ("2024-01-01T11:00:00Z"), none⟩, ⟨some ("2024-01-01T12:00:00Z"), none⟩]
  obtain ⟨hr, hdt, _⟩ := h3 0 (by decide)
  refine ⟨res, by rw [h2]; rfl, hr, by rw [hdt]; rfl⟩

/-- C6: for a well-formed current-conditions response (pairwise distinct
pollutant codes), the parse is total and produces one map entry per input
pollutant, keyed by its code, whose fields copy the `concentration` and
`additionalInfo` sub-objects when present and are `none` when the sub-object
is absent. -/
theorem spec_c6 (ps : List RawPollutant)
    (hnd : (ps.map RawPollutant.code).Nodup) :
    (parsePollutants ps).length = ps.length ∧
    ∀ p ∈ ps, ∃ r, dictLookup (parsePollutants ps) p.code = some r ∧
      ReadingMatches p r := by
  refine ⟨length_parsePollutants ps hnd, ?_⟩
  intro p hp
  refine ⟨pollutantReadingOf p, ?_, readingMatches_pollutantReadingOf p⟩
  rw [dictLookup_parsePollutants, lastMatch_self_of_nodup ps hnd p hp]

/-- Witness for C6: a pollutant with both optional sub-objects missing still
yields a map entry under its code. -/
theorem spec_c6_witness :
    ∃ r, dictLookup (parsePollutants [⟨some ("co"), none, none⟩]) (some ("co")) =
      some r ∧ ReadingMatches ⟨some ("co"), none, none⟩ r :=
  (spec_c6 [⟨some ("co"), none, none⟩] (by decide)).2 ⟨some ("co"), none, none⟩
    (List.mem_singleton_self _)

/-- C9: both lookups - the forecast parse's `uaqi` search and the index
sensor's first-match loop - return the first index entry whose code matches;
any later duplicate has no influence on the result. -/
theorem spec_c9 (pre post post2 : List RawIndex) (a : RawIndex) (code : String)
    (dt : Option String) (hpre : ∀ x ∈ pre, x.code ≠ some code)
    (ha : a.code = some code) :
    findIndexByCode (pre ++ a :: post) code = some a ∧
    findIndexByCode (pre ++ a :: post) code =
      findIndexByCode (pre ++ a :: post2) code ∧
    indexSensorNativeValue (pre ++ a :: post) code = a.aqi ∧
    (code = uaqiCode →
      (forecastParseEntry ⟨dt, some (pre ++ a :: post)⟩).aqi = a.aqi ∧
      (forecastParseEntry ⟨dt, some (pre ++ a :: post)⟩).dominant_pollutant =
        a.dominantPollutant) := by
  have h1 := findIndexByCode_append_first pre post a code hpre ha
  have h2 := findIndexByCode_append_first pre post2 a code hpre ha
  refine ⟨h1, h1.trans h2.symm, ?_, ?_⟩
  · rw [indexSensorNativeValue, h1]
  · intro hc
    subst hc
    constructor
    · simp [forecastParseEntry, h1]
    · simp [forecastParseEntry, h1]

/-- Witness for C9: with a duplicate `uaqi` entry further down the list, the
lookup still returns the first one, and removing the duplicate changes
nothing. -/
theorem spec_c9_witness :
    findIndexByCode
      [⟨some ("lcl"), none, some 1, none, none⟩,
       ⟨some uaqiCode, none, some 42, none, some ("pm25")⟩,
       ⟨some uaqiCode, none, some 99, none, none⟩] uaqiCode =
      some ⟨some uaqiCode, none, some 42, none, some ("pm25")⟩ ∧
    indexSensorNativeValue
      [⟨some ("lcl"), none, some 1, none, none⟩,
       ⟨some uaqiCode, none, some 42, none, some ("pm25")⟩,
       ⟨some uaqiCode, none, some 99, none, none⟩] uaqiCode = some 42 := by
  have h := spec_c9 [⟨some ("lcl"), none, some 1, none, none⟩]
    [⟨some uaqiCode, none, some 99, none, none⟩] []
    ⟨some uaqiCode, none, some 42, none, some ("pm25")⟩ uaqiCode none
    (by decide) rfl
  exact ⟨h.1, h.2.2.1⟩

/-- C10: the pollutant parse is total for entries lacking `code`: they land
under the `none` key; with `p` the last code-less entry of the input, the
map holds exactly one `none`-keyed entry and it carries `p`'s fields
(last write wins). -/
theorem spec_c10 (pre suf : List RawPollutant) (p : RawPollutant)
    (hp : p.code = none) (hsuf : ∀ q ∈ suf, q.code ≠ none) :
    ∃ r, dictLookup (parsePollutants (pre ++ p :: suf)) none = some r ∧
      ReadingMatches p r ∧
      ((dictKeys (parsePollutants (pre ++ p :: suf))).filter
        (fun k => decide (k = none))).length = 1 := by
  have hsuf2 : lastMatch none suf = none := (lastMatch_eq_none_iff none suf).mpr hsuf
  have hlm : lastMatch none (pre ++ p :: suf) = some p := by
    rw [lastMatch_append]
    simp [lastMatch, hsuf2, hp]
  have hlook : dictLookup (parsePollutants (pre ++ p :: suf)) none =
      some (pollutantReadingOf p) := by
    rw [dictLookup_parsePollutants, hlm]
  refine ⟨pollutantReadingOf p, hlook, readingMatches_pollutantReadingOf p, ?_⟩
  exact length_filter_eq_one _ none (dictKeys_nodup_parsePollutants _)
    (mem_dictKeys_of_lookup_some _ none _ hlook)

/-- Witness for C10: two code-less entries collapse into one `none`-keyed
entry carrying the later entry's concentration. -/
theorem spec_c10_witness :
    ∃ r, dictLookup
        (parsePollutants ([⟨none, none, none⟩] ++
          ⟨none, some ⟨some ("5"), none⟩, none⟩ :: [])) none = some r ∧
      ReadingMatches ⟨none, some ⟨some ("5"), none⟩, none⟩ r ∧
      ((dictKeys (parsePollutants ([⟨none, none, none⟩] ++
          ⟨none, some ⟨some ("5"), none⟩, none⟩ :: []))).filter
        (fun k => decide (k = none))).length = 1 :=
  spec_c10 [⟨none, none, none⟩] [] ⟨none, some ⟨some ("5"), none⟩, none⟩ rfl
    (fun q hq => absurd hq (List.not_mem_nil q))

end GoogleAQI
